import Mathlib

/-!
Verification of `src.ts/crypto/signature.ts` (the `Signature` class of the
ethers.js fork).  Byte strings (`Uint8Array` contents, decoded hex strings)
are modelled as `List Nat`; a well-formed byte is `< 256`.  JS `bigint` is
modelled as `Int`, JS `number` (where it only ever holds integers here) as
`Int` too.  Fallible operations (`assertArgument` failures) are modelled with
`Except ArgError`.
-/

/-- An argument-validation error: `assertArgument(check, message, name, value)`
carries a human-readable message and the failing parameter name. -/
structure ArgError where
  message : String
  name : String
deriving Repr, DecidableEq

/-- `bytes[i]` on a `Uint8Array` (0 when out of range; all uses are in range). -/
def byteAt (bs : List Nat) (i : Nat) : Nat := (bs.drop i).headD 0

/-- `bs[0] &= 0x7f` : clear the top bit of the first byte. -/
def clearHighBit : List Nat → List Nat
  | [] => []
  | b :: rest => (b &&& 0x7f) :: rest

/-- `bs[0] |= 0x80` : set the top bit of the first byte. -/
def orHighBit : List Nat → List Nat
  | [] => []
  | b :: rest => (b ||| 0x80) :: rest

/-- `(bs[0] & 0x80) !== 0` : test the top bit of the first byte. -/
def topBitSet (bs : List Nat) : Bool := byteAt bs 0 &&& 0x80 ≠ 0

/-- `ZeroHash` : 32 zero bytes. -/
def ZeroHash : List Nat := List.replicate 32 0

/-- The `Signature` instance state: the private backing store `#props`
(`r`, `s`, `v`, `networkV`) plus whether `Object.freeze` has been applied
to it. -/
structure Signature where
  r : List Nat
  s : List Nat
  v : Nat
  networkV : Option Int
  frozen : Bool
deriving Repr, DecidableEq

/-- `new Signature(_guard, r, s, v)` : sets `networkV` to `null`; the store
starts unfrozen. -/
def Signature.create (r s : List Nat) (v : Nat) : Signature :=
  ⟨r, s, v, none, false⟩

/-- `get yParity()` : `(this.v === 27) ? 0 : 1`. -/
def Signature.yParity (sig : Signature) : Nat :=
  if sig.v = 27 then 0 else 1

/-- `get yParityAndS()` : copy of `s` with the top bit set when `yParity` is
truthy (EIP-2098). -/
def Signature.yParityAndS (sig : Signature) : List Nat :=
  if sig.yParity ≠ 0 then orHighBit sig.s else sig.s

/-- `get compactSerialized()` : `concat([ r, yParityAndS ])`. -/
def Signature.compactSerialized (sig : Signature) : List Nat :=
  sig.r ++ sig.yParityAndS

/-- `get serialized()` : `concat([ r, s, yParity ? "0x1c" : "0x1b" ])`. -/
def Signature.serialized (sig : Signature) : List Nat :=
  sig.r ++ sig.s ++ [if sig.yParity ≠ 0 then 0x1c else 0x1b]

/-- `clone()` : a fresh unfrozen instance with the same `r`, `s`, `v`;
`networkV` is copied only when truthy (`if (this.networkV) { ... }`, which
is false for `null` and for `0n`). -/
def Signature.clone (sig : Signature) : Signature :=
  let c := Signature.create sig.r sig.s sig.v
  match sig.networkV with
  | some n => if n ≠ 0 then { c with networkV := some n } else c
  | none => c

/-- `freeze()` : `Object.freeze(this.#props)`. -/
def Signature.freeze (sig : Signature) : Signature :=
  { sig with frozen := true }

/-- `isFrozen()` : `Object.isFrozen(this.#props)`. -/
def Signature.isFrozen (sig : Signature) : Bool := sig.frozen

/-- `static getChainId(v)` : 27/28 mean no chain binding (0); otherwise the
value must be at least 35, and the chain id is `(v - 35) / 2` (the operands
are non-negative there, so all integer-division conventions agree). -/
def Signature.getChainId (v : Int) : Except ArgError Int :=
  if v = 27 ∨ v = 28 then .ok 0
  else if 35 ≤ v then .ok ((v - 35) / 2)
  else .error ⟨"invalid EIP-155 v", "v"⟩

/-- `static getChainIdV(chainId, v)` :
`(getBigInt(chainId) * BN_2) + BigInt(35 + v - 27)`. -/
def Signature.getChainIdV (chainId : Int) (v : Nat) : Int :=
  chainId * 2 + (35 + (v : Int) - 27)

/-- `static getNormalizedV(v)` : `0 → 27`, `1 → 28`, otherwise by the low bit
(`bv & BN_1` is truthy exactly when `bv` is odd; for a JS `bigint` this is
the Euclidean remainder mod 2). -/
def Signature.getNormalizedV (v : Int) : Nat :=
  if v = 0 then 27
  else if v = 1 then 28
  else if v % 2 = 1 then 27 else 28

/-- `set r(value)` : requires 32 bytes, then writes through `setStore`.
The frozen-store rejection is modelled from the spec: `setStore` (in
`utils/`, not part of the sources here) must refuse writes once the backing
store is frozen. -/
def Signature.setR (sig : Signature) (value : List Nat) : Except ArgError Signature :=
  if value.length = 32 then
    if sig.frozen then .error ⟨"frozen object", "r"⟩
    else .ok { sig with r := value }
  else .error ⟨"invalid r", "value"⟩

/-- `set s(value)` : requires 32 bytes (note: the source's message for this
check reads "invalid r"), requires the top bit clear, then writes through
`setStore` (frozen-store rejection modelled from the spec as in `setR`). -/
def Signature.setS (sig : Signature) (value : List Nat) : Except ArgError Signature :=
  if value.length = 32 then
    if topBitSet value then .error ⟨"non-canonical s", "value"⟩
    else if sig.frozen then .error ⟨"frozen object", "s"⟩
    else .ok { sig with s := value }
  else .error ⟨"invalid r", "value"⟩

/-- `set v(value)` : requires 27 or 28, then writes through `setStore`
(frozen-store rejection modelled from the spec as in `setR`). -/
def Signature.setV (sig : Signature) (value : Int) : Except ArgError Signature :=
  if value = 27 ∨ value = 28 then
    if sig.frozen then .error ⟨"frozen object", "v"⟩
    else .ok { sig with v := value.toNat }
  else .error ⟨"invalid v", "v"⟩

/-- The structured-record shape of `SignatureLike`: an object carrying some
subset of `{ r, s, v, yParity, yParityAndS }` (`r`, `s`, `yParityAndS` are
hex strings, here decoded to bytes; `v` a `BigNumberish`; `yParity` a
number).  `none` means the key is absent. -/
structure SigRecord where
  r : Option (List Nat)
  s : Option (List Nat)
  v : Option Int
  yParity : Option Int
  yParityAndS : Option (List Nat)
deriving Repr, DecidableEq

/-- The `SignatureLike` union accepted by `Signature.from`: absent, a raw
byte blob (a hex string or `Uint8Array`), an existing instance, or a
structured record. -/
inductive SignatureLike where
  | nullish
  | blob (bytes : List Nat)
  | inst (sig : Signature)
  | record (rec : SigRecord)
deriving Repr, DecidableEq

/-- The string path of `Signature.from`: 64-byte EIP-2098 blobs, 65-byte
`r ‖ s ‖ v` blobs, anything else an error. -/
def Signature.fromBytes (b : List Nat) : Except ArgError Signature :=
  if b.length = 64 then
    let r := b.take 32
    let s := b.drop 32
    let v := if topBitSet s then 28 else 27
    .ok (Signature.create r (clearHighBit s) v)
  else if b.length = 65 then
    let r := b.take 32
    let s := (b.drop 32).take 32
    if topBitSet s then .error ⟨"non-canonical s", "signature"⟩
    else .ok (Signature.create r s (Signature.getNormalizedV (byteAt b 64)))
  else .error ⟨"invlaid raw signature length", "signature"⟩

/-- The `s`-resolution closure of `Signature.from`'s record path: an explicit
`s` (validated as 32 bytes) wins; otherwise `yParityAndS` (validated as 32
bytes) with its top bit cleared; otherwise "missing s". -/
def Signature.resolveS (s yParityAndS : Option (List Nat)) :
    Except ArgError (List Nat) :=
  match s with
  | some s => if s.length = 32 then .ok s else .error ⟨"invalid s", "signature"⟩
  | none =>
    match yParityAndS with
    | some ys =>
        if ys.length = 32 then .ok (clearHighBit ys)
        else .error ⟨"invalid yParityAndS", "signature"⟩
    | none => .error ⟨"missing s", "signature"⟩

/-- The `v`-resolution closure of `Signature.from`'s record path: an explicit
`v` wins (normalized, and kept as `networkV` when at least 35); otherwise the
top bit of `yParityAndS`; otherwise `yParity` (`0 → 27`, `1 → 28`, anything
else "invalid yParity"); otherwise "missing v". -/
def Signature.resolveV (v : Option Int) (yParityAndS : Option (List Nat))
    (yParity : Option Int) : Except ArgError (Option Int × Nat) :=
  match v with
  | some raw =>
      .ok (if 35 ≤ raw then some raw else none, Signature.getNormalizedV raw)
  | none =>
    match yParityAndS with
    | some ys =>
        if ys.length = 32 then .ok (none, if topBitSet ys then 28 else 27)
        else .error ⟨"invalid yParityAndS", "signature"⟩
    | none =>
      match yParity with
      | some yp =>
          if yp = 0 then .ok (none, 27)
          else if yp = 1 then .ok (none, 28)
          else .error ⟨"invalid yParity", "signature"⟩
      | none => .error ⟨"missing v", "signature"⟩

/-- The record path of `Signature.from` up to (and excluding) the final
redundancy cross-checks: validate `r`, resolve `s` and check canonicality,
resolve `v`/`networkV`, assemble the instance. -/
def Signature.assembleRecord (rec : SigRecord) : Except ArgError Signature :=
  match rec.r with
  | none => .error ⟨"missing r", "signature"⟩
  | some r =>
    if r.length = 32 then
      match Signature.resolveS rec.s rec.yParityAndS with
      | .error e => .error e
      | .ok s =>
        if topBitSet s then .error ⟨"non-canonical s", "signature"⟩
        else
          match Signature.resolveV rec.v rec.yParityAndS rec.yParity with
          | .error e => .error e
          | .ok (networkV, v) =>
              .ok { Signature.create r s v with networkV := networkV }
    else .error ⟨"invalid r", "signature"⟩

/-- The record path of `Signature.from`: assemble, then cross-check any
redundantly supplied `yParity` / `yParityAndS` against the result. -/
def Signature.fromRecord (rec : SigRecord) : Except ArgError Signature :=
  match Signature.assembleRecord rec with
  | .error e => .error e
  | .ok result =>
    if rec.yParity.isSome ∧ rec.yParity ≠ some (result.yParity : Int) then
      .error ⟨"yParity mismatch", "signature"⟩
    else if rec.yParityAndS.isSome ∧ rec.yParityAndS ≠ some result.yParityAndS then
      .error ⟨"yParityAndS mismatch", "signature"⟩
    else .ok result

/-- `static from(sig)` : dispatch on the input shape. -/
def Signature.fromLike : SignatureLike → Except ArgError Signature
  | .nullish => .ok (Signature.create ZeroHash ZeroHash 27)
  | .blob b => Signature.fromBytes b
  | .inst sig => .ok sig.clone
  | .record rec => Signature.fromRecord rec

/-- The class invariants of a live instance (spec §3): 32-byte `r`, 32-byte
canonical low-`s` made of bytes, `v ∈ {27, 28}`. -/
def Signature.Valid (sig : Signature) : Prop :=
  sig.r.length = 32 ∧ sig.s.length = 32 ∧ (∀ b ∈ sig.s, b < 256) ∧
  topBitSet sig.s = false ∧ (sig.v = 27 ∨ sig.v = 28)

/-- The `networkV` invariant maintained by the factory surface: absent, or at
least 35. -/
def Signature.NetworkVOk (sig : Signature) : Prop :=
  sig.networkV = none ∨ ∃ n, sig.networkV = some n ∧ 35 ≤ n

deriving instance DecidableEq for Except

/-! ### Helper lemmas -/

set_option maxRecDepth 4000 in
/-- Bit facts about a byte whose top bit is clear. -/
theorem byte_bit_facts : ∀ x < 256, x &&& 128 = 0 →
    (x &&& 127 = x ∧ (x ||| 128) &&& 127 = x ∧ (x ||| 128) &&& 128 ≠ 0) := by
  decide

/-- Clearing the high bit of the first byte always yields a top-bit-clear
string. -/
theorem topBitSet_clearHighBit (ys : List Nat) :
    topBitSet (clearHighBit ys) = false := by
  cases ys with
  | nil => rfl
  | cons b rest =>
      simp only [clearHighBit, topBitSet, byteAt, List.drop_zero, List.headD_cons,
        ne_eq, decide_eq_false_iff_not, Decidable.not_not]
      have h1 : (127 : Nat) &&& 128 = 0 := by decide
      rw [Nat.land_assoc, h1]
      simp

/-- `clearHighBit` preserves length. -/
theorem clearHighBit_length (ys : List Nat) :
    (clearHighBit ys).length = ys.length := by
  cases ys <;> rfl

/-- `orHighBit` preserves length. -/
theorem orHighBit_length (ys : List Nat) :
    (orHighBit ys).length = ys.length := by
  cases ys <;> rfl

/-- The head of a non-trivial `take` is the head of the list. -/
theorem headD_take (l : List Nat) (n : Nat) (d : Nat) (hl : l ≠ []) :
    ((l.take (n + 1)).headD d) = l.headD d := by
  cases l with
  | nil => exact absurd rfl hl
  | cons b rest => rfl

/-! ### Claims -/

/-- C6: for every non-negative chain id `c` and `v ∈ {27, 28}`,
`getChainIdV c v = c*2 + 35 + (v - 27)` and `getChainId` inverts it;
`getChainId` returns 0 on 27 and 28, fails with an argument error on any
other value below 35, and otherwise returns `(v - 35) / 2` by integer floor
division. -/
theorem C6_chain_id_inverse :
    (∀ c : Int, 0 ≤ c → ∀ v : Nat, v = 27 ∨ v = 28 →
      Signature.getChainIdV c v = c * 2 + 35 + ((v : Int) - 27) ∧
      Signature.getChainId (Signature.getChainIdV c v) = .ok c) ∧
    Signature.getChainId 27 = .ok 0 ∧
    Signature.getChainId 28 = .ok 0 ∧
    (∀ w : Int, w < 35 → w ≠ 27 → w ≠ 28 →
      Signature.getChainId w = .error ⟨"invalid EIP-155 v", "v"⟩) ∧
    (∀ w : Int, 35 ≤ w → Signature.getChainId w = .ok ((w - 35) / 2)) := by
  refine ⟨?_, by decide, by decide, ?_, ?_⟩
  · intro c hc v hv
    constructor
    · unfold Signature.getChainIdV; ring
    · unfold Signature.getChainId Signature.getChainIdV
      rcases hv with h | h <;> subst h <;>
        rw [if_neg (by push_cast; omega), if_pos (by push_cast; omega)] <;>
        · congr 1; push_cast; omega
  · intro w h35 h27 h28
    unfold Signature.getChainId
    rw [if_neg (by omega), if_neg (by omega)]
  · intro w h35
    unfold Signature.getChainId
    rw [if_neg (by omega), if_pos h35]

/-- C6 witness: instantiated at `c = 5`, `v = 28`, `w = 30`, `w = 99`. -/
theorem C6_chain_id_inverse_witness :
    ((0 : Int) ≤ 5 ∧
      Signature.getChainIdV 5 28 = 5 * 2 + 35 + ((28 : Int) - 27) ∧
      Signature.getChainId (Signature.getChainIdV 5 28) = .ok 5) ∧
    ((30 : Int) < 35 ∧
      Signature.getChainId 30 = .error ⟨"invalid EIP-155 v", "v"⟩) ∧
    ((35 : Int) ≤ 99 ∧ Signature.getChainId 99 = .ok ((99 - 35) / 2)) :=
  ⟨⟨by decide, (C6_chain_id_inverse.1 5 (by decide) 28 (Or.inr rfl)).1,
      (C6_chain_id_inverse.1 5 (by decide) 28 (Or.inr rfl)).2⟩,
    ⟨by decide, C6_chain_id_inverse.2.2.2.1 30 (by decide) (by decide) (by decide)⟩,
    ⟨by decide, C6_chain_id_inverse.2.2.2.2 99 (by decide)⟩⟩

/-- C7: `getNormalizedV` maps 0 to 27, 1 to 28, every other non-negative
input by parity (odd to 27, even to 28, including values below 27), fixes 27
and 28, and always lands in {27, 28}. -/
theorem C7_normalized_v :
    Signature.getNormalizedV 0 = 27 ∧ Signature.getNormalizedV 1 = 28 ∧
    (∀ v : Int, 0 ≤ v → v ≠ 0 → v ≠ 1 →
      Signature.getNormalizedV v = if v % 2 = 1 then 27 else 28) ∧
    Signature.getNormalizedV 27 = 27 ∧ Signature.getNormalizedV 28 = 28 ∧
    (∀ v : Int, Signature.getNormalizedV v = 27 ∨ Signature.getNormalizedV v = 28) := by
  refine ⟨rfl, rfl, ?_, by decide, by decide, ?_⟩
  · intro v _ h0 h1
    unfold Signature.getNormalizedV
    rw [if_neg h0, if_neg h1]
  · intro v
    unfold Signature.getNormalizedV
    split
    · exact Or.inl rfl
    · split
      · exact Or.inr rfl
      · split
        · exact Or.inl rfl
        · exact Or.inr rfl

/-- C7 witness: the parity branch instantiated at 46 (even, below-27 values
covered by the 0-case elsewhere). -/
theorem C7_normalized_v_witness :
    (0 : Int) ≤ 46 ∧
      Signature.getNormalizedV 46 = if (46 : Int) % 2 = 1 then 27 else 28 :=
  ⟨by decide, C7_normalized_v.2.2.1 46 (by decide) (by decide) (by decide)⟩

/-- What the 64-byte path of `fromBytes` produces. -/
theorem fromBytes_blob64_eq (b : List Nat) (h : b.length = 64) :
    Signature.fromBytes b =
      .ok (Signature.create (b.take 32) (clearHighBit (b.drop 32))
        (if byteAt b 32 &&& 0x80 ≠ 0 then 28 else 27)) := by
  unfold Signature.fromBytes
  rw [if_pos h]
  simp only [topBitSet, byteAt, List.drop_zero]
  by_cases hb : byteAt b 32 &&& 0x80 ≠ 0 <;>
    simp_all [byteAt]

/-- C3: on every 64-byte blob, `from` returns `r` = first 32 bytes, `v` = 28
exactly when the top bit of byte 32 is set (27 otherwise), and `s` = bytes
32..63 with that top bit cleared. -/
theorem C3_blob64 (b : List Nat) (h : b.length = 64) :
    Signature.fromBytes b =
      .ok (Signature.create (b.take 32) (clearHighBit (b.drop 32))
        (if byteAt b 32 &&& 0x80 ≠ 0 then 28 else 27)) :=
  fromBytes_blob64_eq b h

/-- The spec's concrete 64-byte example: 32 bytes `0x11`, then `0x80`, then
31 zero bytes. -/
def blob64ex : List Nat := List.replicate 32 0x11 ++ (0x80 :: List.replicate 31 0)

/-- C3 witness: the concrete example yields `r = 0x11…11`, `s = 0x00…00`,
`v = 28`. -/
theorem C3_blob64_witness :
    blob64ex.length = 64 ∧
    Signature.fromBytes blob64ex =
      .ok (Signature.create (List.replicate 32 0x11) (List.replicate 32 0) 28) := by
  refine ⟨by decide, ?_⟩
  rw [C3_blob64 blob64ex (by decide)]
  decide

/-- The head of a 32-element `take` is the head of the list. -/
theorem headD_take32 (l : List Nat) (d : Nat) (hl : l ≠ []) :
    ((l.take 32).headD d) = l.headD d := headD_take l 31 d hl

/-- `resolveV` never produces the non-canonical-`s` error. -/
theorem resolveV_ne_noncanon (v : Option Int) (ys : Option (List Nat)) (yp : Option Int) :
    Signature.resolveV v ys yp ≠ .error ⟨"non-canonical s", "signature"⟩ := by
  unfold Signature.resolveV
  rcases v with _ | raw
  · rcases ys with _ | ys'
    · rcases yp with _ | ypv
      · simp
      · by_cases h0 : ypv = 0 <;> by_cases h1 : ypv = 1 <;> simp [h0, h1]
    · by_cases hl : ys'.length = 32 <;> simp [hl]
  · simp

/-- A 65-byte blob whose `s` portion has the top bit set is rejected. -/
theorem fromBytes_65_noncanon (b : List Nat) (h65 : b.length = 65)
    (hbit : byteAt b 32 &&& 0x80 ≠ 0) :
    Signature.fromBytes b = .error ⟨"non-canonical s", "signature"⟩ := by
  unfold Signature.fromBytes
  rw [if_neg (by omega), if_pos h65]
  have hne : b.drop 32 ≠ [] := by
    intro hnil
    have := congrArg List.length hnil
    simp [h65] at this
  have htop : topBitSet ((b.drop 32).take 32) = true := by
    simp only [topBitSet, byteAt, List.drop_zero, decide_eq_true_eq]
    rw [headD_take32 _ _ hne]
    simpa [byteAt] using hbit
  simp [htop]

/-- A record whose explicit `s` has the top bit set is rejected. -/
theorem fromRecord_explicit_s_noncanon (rec : SigRecord) (r s : List Nat)
    (hr : rec.r = some r) (h32 : r.length = 32) (hs : rec.s = some s)
    (hs32 : s.length = 32) (hbit : topBitSet s = true) :
    Signature.fromRecord rec = .error ⟨"non-canonical s", "signature"⟩ := by
  unfold Signature.fromRecord Signature.assembleRecord Signature.resolveS
  rw [hr, hs]
  simp [h32, hs32, hbit]

/-- The 64-byte path always succeeds, with a top-bit-clear stored `s`. -/
theorem fromBytes_64_ok (b : List Nat) (h : b.length = 64) :
    ∃ res, Signature.fromBytes b = .ok res ∧ topBitSet res.s = false := by
  refine ⟨Signature.create (b.take 32) (clearHighBit (b.drop 32))
      (if topBitSet (b.drop 32) then 28 else 27), ?_, topBitSet_clearHighBit _⟩
  unfold Signature.fromBytes
  rw [if_pos h]

/-- When `s` is derived from `yParityAndS`, the record path can never fail
with the non-canonical-`s` error. -/
theorem fromRecord_derived_s_never_noncanon (rec : SigRecord) (hs : rec.s = none) :
    Signature.fromRecord rec ≠ .error ⟨"non-canonical s", "signature"⟩ := by
  unfold Signature.fromRecord Signature.assembleRecord Signature.resolveS
  rw [hs]
  rcases hr : rec.r with _ | r
  · simp
  · by_cases h32 : r.length = 32
    · rcases hys : rec.yParityAndS with _ | ys
      · simp [h32]
      · by_cases hl : ys.length = 32
        · rcases hv : Signature.resolveV rec.v (some ys) rec.yParity with e | ⟨nv, v⟩
          · have hne : e ≠ ⟨"non-canonical s", "signature"⟩ := by
              intro he
              exact resolveV_ne_noncanon rec.v (some ys) rec.yParity (by rw [hv, he])
            simp [h32, hl, topBitSet_clearHighBit, hv, hne]
          · simp only [h32, hl, topBitSet_clearHighBit, hv, if_true]
            simp only [Bool.false_eq_true, if_false]
            split
            · simp
            · split <;> simp
        · simp [h32, hl]
    · simp [h32]

/-- C2: every input path whose resolved `s` has the top bit set fails with
the non-canonical-`s` error (65-byte blob, structured record with explicit
`s`), while the 64-byte path and the `yParityAndS` derivation clear the top
bit and never trigger that failure on the derived `s`. -/
theorem C2_non_canonical_s :
    (∀ b : List Nat, b.length = 65 → byteAt b 32 &&& 0x80 ≠ 0 →
      Signature.fromBytes b = .error ⟨"non-canonical s", "signature"⟩) ∧
    (∀ rec : SigRecord, ∀ r s, rec.r = some r → r.length = 32 →
      rec.s = some s → s.length = 32 → topBitSet s = true →
      Signature.fromRecord rec = .error ⟨"non-canonical s", "signature"⟩) ∧
    (∀ b : List Nat, b.length = 64 →
      ∃ res, Signature.fromBytes b = .ok res ∧ topBitSet res.s = false) ∧
    (∀ ys : List Nat, topBitSet (clearHighBit ys) = false) ∧
    (∀ rec : SigRecord, rec.s = none →
      Signature.fromRecord rec ≠ .error ⟨"non-canonical s", "signature"⟩) :=
  ⟨fromBytes_65_noncanon, fromRecord_explicit_s_noncanon, fromBytes_64_ok,
    topBitSet_clearHighBit, fromRecord_derived_s_never_noncanon⟩

/-- A concrete 65-byte blob whose `s` portion starts with `0x80`. -/
def blob65ex : List Nat :=
  List.replicate 32 0x11 ++ (0x80 :: List.replicate 31 0) ++ [27]

/-- A concrete record carrying an explicit high-bit `s`. -/
def recNoncanonEx : SigRecord :=
  ⟨some (List.replicate 32 1), some (0x80 :: List.replicate 31 0), some 27, none, none⟩

/-- C2 witness: the 65-byte rejection and the record rejection at concrete
inputs. -/
theorem C2_non_canonical_s_witness :
    (blob65ex.length = 65 ∧
      Signature.fromBytes blob65ex = .error ⟨"non-canonical s", "signature"⟩) ∧
    (Signature.fromRecord recNoncanonEx = .error ⟨"non-canonical s", "signature"⟩) :=
  ⟨⟨by decide, C2_non_canonical_s.1 blob65ex (by decide) (by decide)⟩,
    C2_non_canonical_s.2.1 recNoncanonEx (List.replicate 32 1)
      (0x80 :: List.replicate 31 0) rfl (by decide) rfl (by decide) (by decide)⟩

/-- C1: when the record path assembles a result, redundantly supplied
`yParity` / `yParityAndS` fields are cross-checked against the result: a
mismatching `yParity` fails with "yParity mismatch", a mismatching
`yParityAndS` fails with "yParityAndS mismatch", and `from` succeeds with
the assembled result exactly when every redundant field agrees. -/
theorem C1_redundancy_cross_check (rec : SigRecord) (res : Signature)
    (h : Signature.assembleRecord rec = .ok res) :
    (Signature.fromRecord rec = .ok res ↔
      (∀ yp, rec.yParity = some yp → yp = (res.yParity : Int)) ∧
      (∀ ys, rec.yParityAndS = some ys → ys = res.yParityAndS)) ∧
    ((∃ yp, rec.yParity = some yp ∧ yp ≠ (res.yParity : Int)) →
      Signature.fromRecord rec = .error ⟨"yParity mismatch", "signature"⟩) ∧
    ((∀ yp, rec.yParity = some yp → yp = (res.yParity : Int)) →
      (∃ ys, rec.yParityAndS = some ys ∧ ys ≠ res.yParityAndS) →
      Signature.fromRecord rec = .error ⟨"yParityAndS mismatch", "signature"⟩) := by
  unfold Signature.fromRecord
  rw [h]
  rcases hyp : rec.yParity with _ | yp <;> rcases hys : rec.yParityAndS with _ | ys
  · simp
  · by_cases he : ys = res.yParityAndS <;> simp [he]
  · by_cases he : yp = (res.yParity : Int) <;> simp [he]
  · by_cases he1 : yp = (res.yParity : Int) <;> by_cases he2 : ys = res.yParityAndS <;>
      simp [he1, he2]

/-- A record supplying `v = 27` together with an agreeing `yParity = 0`. -/
def recAgreeEx : SigRecord :=
  ⟨some (List.replicate 32 1), some (List.replicate 32 2), some 27, some 0, none⟩

/-- A record supplying `v = 27` together with a contradictory `yParity = 1`. -/
def recMismatchEx : SigRecord :=
  ⟨some (List.replicate 32 1), some (List.replicate 32 2), some 27, some 1, none⟩

/-- C1 witness: agreement succeeds and matches; contradiction fails with the
mismatch error. -/
theorem C1_redundancy_cross_check_witness :
    (Signature.fromRecord recAgreeEx =
      .ok (Signature.create (List.replicate 32 1) (List.replicate 32 2) 27)) ∧
    (Signature.fromRecord recMismatchEx =
      .error ⟨"yParity mismatch", "signature"⟩) :=
  ⟨(C1_redundancy_cross_check recAgreeEx
        (Signature.create (List.replicate 32 1) (List.replicate 32 2) 27)
        (by decide)).1.mpr
      (by constructor
          · intro yp hyp
            simp only [recAgreeEx] at hyp
            cases hyp
            decide
          · intro ys hys
            simp only [recAgreeEx] at hys
            cases hys),
    (C1_redundancy_cross_check recMismatchEx
        (Signature.create (List.replicate 32 1) (List.replicate 32 2) 27)
        (by decide)).2.1 ⟨1, rfl, by decide⟩⟩

/-- If the record path assembles a result, `resolveV` produced exactly the
result's `networkV` and `v`. -/
theorem assembleRecord_ok_resolveV (rec : SigRecord) (res : Signature)
    (h : Signature.assembleRecord rec = .ok res) :
    Signature.resolveV rec.v rec.yParityAndS rec.yParity = .ok (res.networkV, res.v) := by
  unfold Signature.assembleRecord at h
  split at h
  · cases h
  · split at h
    · split at h
      · cases h
      · split at h
        · cases h
        · split at h
          · cases h
          · rename_i heq_v
            injection h with h2
            rw [heq_v, ← h2]
            rfl
    · cases h

/-- A successful `fromRecord` implies a successful assembly of the same
result. -/
theorem fromRecord_ok_assemble (rec : SigRecord) (res : Signature)
    (h : Signature.fromRecord rec = .ok res) :
    Signature.assembleRecord rec = .ok res := by
  unfold Signature.fromRecord at h
  split at h
  · cases h
  · rename_i result heq
    split at h
    · cases h
    · split at h
      · cases h
      · injection h with h2
        rw [heq, h2]

/-- C4: the `v`-resolution priority of the record path — an explicit `v` is
normalized via `getNormalizedV` and kept as `networkV` exactly when the raw
value is at least 35; otherwise `yParityAndS`'s top bit gives 28/27 with no
`networkV`; otherwise `yParity` maps 0 to 27 and 1 to 28 and anything else
fails as invalid `yParity`; otherwise `from` fails with a missing-`v` error.
Any successfully constructed record result carries exactly the resolved
`networkV` and `v`, and any `resolveV` failure is the failure `from`
reports. -/
theorem C4_v_priority :
    (∀ raw : Int, ∀ ys : Option (List Nat), ∀ yp : Option Int,
      Signature.resolveV (some raw) ys yp =
        .ok (if 35 ≤ raw then some raw else none, Signature.getNormalizedV raw)) ∧
    (∀ ys : List Nat, ys.length = 32 → ∀ yp : Option Int,
      Signature.resolveV none (some ys) yp =
        .ok (none, if topBitSet ys then 28 else 27)) ∧
    Signature.resolveV none none (some 0) = .ok (none, 27) ∧
    Signature.resolveV none none (some 1) = .ok (none, 28) ∧
    (∀ yp : Int, yp ≠ 0 → yp ≠ 1 →
      Signature.resolveV none none (some yp) =
        .error ⟨"invalid yParity", "signature"⟩) ∧
    Signature.resolveV none none none = .error ⟨"missing v", "signature"⟩ ∧
    (∀ rec : SigRecord, ∀ res : Signature, Signature.fromRecord rec = .ok res →
      Signature.resolveV rec.v rec.yParityAndS rec.yParity =
        .ok (res.networkV, res.v)) ∧
    (∀ rec : SigRecord, ∀ r s : List Nat, rec.r = some r → r.length = 32 →
      Signature.resolveS rec.s rec.yParityAndS = .ok s → topBitSet s = false →
      ∀ e : ArgError,
        Signature.resolveV rec.v rec.yParityAndS rec.yParity = .error e →
        Signature.fromRecord rec = .error e) := by
  refine ⟨fun raw ys yp => rfl, ?_, rfl, rfl, ?_, rfl, ?_, ?_⟩
  · intro ys h32 yp
    simp [Signature.resolveV, h32]
  · intro yp h0 h1
    simp [Signature.resolveV, h0, h1]
  · intro rec res h
    exact assembleRecord_ok_resolveV rec res (fromRecord_ok_assemble rec res h)
  · intro rec r s hr h32 hs ht e hv
    simp only [Signature.fromRecord, Signature.assembleRecord, hr, h32, hs, ht, hv]
    simp

/-- C4 witness: the explicit-`v` branch at a chain-bound raw value, the
`yParityAndS` branch at a concrete 32-byte value, and the invalid-`yParity`
branch at 2. -/
theorem C4_v_priority_witness :
    (Signature.resolveV (some 37) none none =
      .ok (if (35 : Int) ≤ 37 then some 37 else none, Signature.getNormalizedV 37)) ∧
    ((List.replicate 32 (0x80 : Nat)).length = 32 ∧
      Signature.resolveV none (some (List.replicate 32 0x80)) (some 5) =
        .ok (none, if topBitSet (List.replicate 32 0x80) then 28 else 27)) ∧
    Signature.resolveV none none (some 2) = .error ⟨"invalid yParity", "signature"⟩ :=
  ⟨C4_v_priority.1 37 none none,
    ⟨by decide, C4_v_priority.2.1 (List.replicate 32 0x80) (by decide) (some 5)⟩,
    C4_v_priority.2.2.2.2.1 2 (by decide) (by decide)⟩

/-- How `yParityAndS` relates to a valid instance's stored `s` and `v`. -/
theorem yParityAndS_props (sig : Signature) (hs : sig.s.length = 32)
    (hbytes : ∀ b ∈ sig.s, b < 256) (htop : topBitSet sig.s = false)
    (hv : sig.v = 27 ∨ sig.v = 28) :
    clearHighBit sig.yParityAndS = sig.s ∧
    (sig.yParityAndS.length = 32) ∧
    ((decide (byteAt sig.yParityAndS 0 &&& 0x80 ≠ 0)) = decide (sig.v = 28)) := by
  rcases hsl : sig.s with _ | ⟨s0, rest⟩
  · rw [hsl] at hs; simp at hs
  · have hs0 : s0 < 256 := hbytes s0 (by rw [hsl]; exact List.mem_cons_self _ _)
    have htop0 : s0 &&& 128 = 0 := by
      rw [hsl] at htop
      simpa [topBitSet, byteAt] using htop
    obtain ⟨hf1, hf2, hf3⟩ := byte_bit_facts s0 hs0 htop0
    unfold Signature.yParityAndS Signature.yParity
    rcases hv with h27 | h28
    · rw [h27]
      simp only [if_pos rfl, ne_eq, not_true_eq_false, if_false, hsl]
      refine ⟨by simp [clearHighBit, hf1], by simpa [hsl] using hs, ?_⟩
      simp [byteAt, htop0]
    · rw [h28]
      have : ¬ ((28 : Nat) = 27) := by decide
      simp only [if_neg this, ne_eq, Nat.one_ne_zero, not_false_eq_true, if_true, hsl]
      refine ⟨by simp [clearHighBit, orHighBit, hf2], ?_, ?_⟩
      · simpa [orHighBit, hsl] using hs
      · simp [orHighBit, byteAt, hf3]

/-- The 65-byte path on `r ‖ s ‖ [c]` with canonical `s`. -/
theorem fromBytes_65_ok (r s : List Nat) (c : Nat) (hr : r.length = 32)
    (hs : s.length = 32) (htop : topBitSet s = false) :
    Signature.fromBytes (r ++ (s ++ [c])) =
      .ok (Signature.create r s (Signature.getNormalizedV c)) := by
  have hlen : (r ++ (s ++ [c])).length = 65 := by simp [hr, hs]
  have hdrop : (r ++ (s ++ [c])).drop 32 = s ++ [c] := List.drop_left' hr
  have htake2 : ((r ++ (s ++ [c])).drop 32).take 32 = s := by
    rw [hdrop]; exact List.take_left' hs
  have htake1 : (r ++ (s ++ [c])).take 32 = r := List.take_left' hr
  have hb64 : byteAt (r ++ (s ++ [c])) 64 = c := by
    have h1 : (r ++ (s ++ [c])).drop 64 = [c] := by
      rw [show (64 : Nat) = 32 + 32 from rfl, ← List.drop_drop, hdrop]
      exact List.drop_left' hs
    simp [byteAt, h1]
  unfold Signature.fromBytes
  rw [if_neg (by omega), if_pos hlen]
  simp [htake1, htake2, htop, hb64]

/-- C5: for every valid instance, `from` on `serialized` and on
`compactSerialized` both succeed and reproduce `r`, `s`, `v`, with
`networkV` null (the `create` result carries `networkV = none`). -/
theorem C5_round_trip (sig : Signature) (h : sig.Valid) :
    Signature.fromLike (.blob sig.serialized) =
      .ok (Signature.create sig.r sig.s sig.v) ∧
    Signature.fromLike (.blob sig.compactSerialized) =
      .ok (Signature.create sig.r sig.s sig.v) := by
  obtain ⟨hr, hs, hbytes, htop, hv⟩ := h
  constructor
  · show Signature.fromBytes sig.serialized = _
    have hser : sig.serialized =
        sig.r ++ (sig.s ++ [if sig.yParity ≠ 0 then 0x1c else 0x1b]) := by
      simp [Signature.serialized, List.append_assoc]
    rw [hser, fromBytes_65_ok _ _ _ hr hs htop]
    rcases hv with h27 | h28
    · simp [Signature.yParity, h27, Signature.getNormalizedV]
    · simp only [Signature.yParity, h28]
      norm_num [Signature.getNormalizedV]
  · show Signature.fromBytes sig.compactSerialized = _
    obtain ⟨hclear, hyslen, hbit⟩ := yParityAndS_props sig hs hbytes htop hv
    have hlen : sig.compactSerialized.length = 64 := by
      simp [Signature.compactSerialized, hr, hyslen]
    have heq := fromBytes_blob64_eq sig.compactSerialized hlen
    have htake : sig.compactSerialized.take 32 = sig.r := List.take_left' hr
    have hdrop : sig.compactSerialized.drop 32 = sig.yParityAndS := List.drop_left' hr
    have hb32 : byteAt sig.compactSerialized 32 = byteAt sig.yParityAndS 0 := by
      simp [byteAt, hdrop]
    have hvv : (if byteAt sig.compactSerialized 32 &&& 0x80 ≠ 0 then 28 else 27) = sig.v := by
      rw [hb32]
      rcases hv with h27 | h28
      · rw [h27] at hbit ⊢
        have hfalse : ¬(byteAt sig.yParityAndS 0 &&& 0x80 ≠ 0) := by
          intro hcontra
          simp [hcontra] at hbit
        rw [if_neg hfalse]
      · rw [h28] at hbit ⊢
        have htrue : byteAt sig.yParityAndS 0 &&& 0x80 ≠ 0 := by
          by_contra hcontra
          simp [hcontra] at hbit
        rw [if_pos htrue]
    rw [heq, htake, hdrop, hclear, hvv]

/-- A concrete valid, chain-bound instance. -/
def sigEx : Signature :=
  ⟨List.replicate 32 1, 0x7f :: List.replicate 31 2, 28, some 37, false⟩

/-- C5 witness: the round trip at a concrete chain-bound instance. -/
theorem C5_round_trip_witness :
    sigEx.Valid ∧
    Signature.fromLike (.blob sigEx.serialized) =
      .ok (Signature.create sigEx.r sigEx.s sigEx.v) ∧
    Signature.fromLike (.blob sigEx.compactSerialized) =
      .ok (Signature.create sigEx.r sigEx.s sigEx.v) :=
  have hval : sigEx.Valid := ⟨by decide, by decide, by decide, by decide, by decide⟩
  ⟨hval, (C5_round_trip sigEx hval).1, (C5_round_trip sigEx hval).2⟩

/-- C8 (code evidence): the `s` setter rejects a wrong-length value, but its
error message reads "invalid r", misidentifying the offending field. -/
theorem C8_s_setter_misnamed_error :
    Signature.setS (Signature.create ZeroHash ZeroHash 27) (List.replicate 31 0) =
      .error ⟨"invalid r", "value"⟩ := by decide

/-- Under the factory invariant, `clone` copies `networkV` exactly. -/
theorem clone_networkV (sig : Signature) (h : sig.NetworkVOk) :
    sig.clone.networkV = sig.networkV := by
  rcases h with hnone | ⟨n, hn, h35⟩
  · simp [Signature.clone, Signature.create, hnone]
  · have hne : n ≠ 0 := by omega
    simp [Signature.clone, Signature.create, hn, hne]

/-- `clone` copies `r`, `s`, `v` and produces an unfrozen instance. -/
theorem clone_fields (sig : Signature) :
    sig.clone.r = sig.r ∧ sig.clone.s = sig.s ∧ sig.clone.v = sig.v ∧
    sig.clone.isFrozen = false := by
  unfold Signature.clone Signature.create Signature.isFrozen
  rcases sig.networkV with _ | n
  · simp
  · by_cases hn : n = 0 <;> simp [hn]

/-- C9: after `freeze`, every mutator fails while every getter still returns
the frozen-time value, and `clone` of the frozen instance is a new unfrozen
instance with equal `r`, `s`, `v`, `networkV` (the frozen-store rejection in
the mutators is modelled from the spec, since `setStore` lives in `utils/`
outside these sources). -/
theorem C9_freeze_semantics (sig : Signature) (h : sig.NetworkVOk) :
    (∀ x : List Nat, ∀ res, Signature.setR sig.freeze x ≠ .ok res) ∧
    (∀ x : List Nat, ∀ res, Signature.setS sig.freeze x ≠ .ok res) ∧
    (∀ x : Int, ∀ res, Signature.setV sig.freeze x ≠ .ok res) ∧
    sig.freeze.r = sig.r ∧ sig.freeze.s = sig.s ∧ sig.freeze.v = sig.v ∧
    sig.freeze.networkV = sig.networkV ∧
    sig.freeze.clone.isFrozen = false ∧
    sig.freeze.clone.r = sig.r ∧ sig.freeze.clone.s = sig.s ∧
    sig.freeze.clone.v = sig.v ∧ sig.freeze.clone.networkV = sig.networkV := by
  have hfr : sig.freeze.NetworkVOk := h
  have hcl : sig.freeze.clone.networkV = sig.networkV := clone_networkV sig.freeze hfr
  obtain ⟨hclr, hcls, hclv, hclf⟩ := clone_fields sig.freeze
  refine ⟨?_, ?_, ?_, rfl, rfl, rfl, rfl, hclf, hclr, hcls, hclv, hcl⟩
  · intro x res
    unfold Signature.setR Signature.freeze
    split <;> simp
  · intro x res
    unfold Signature.setS Signature.freeze
    split
    · split <;> simp
    · simp
  · intro x res
    unfold Signature.setV Signature.freeze
    split <;> simp

/-- The 65-byte branch of `fromBytes`, in closed form. -/
theorem fromBytes_65_eq (b : List Nat) (h64 : b.length ≠ 64) (h65 : b.length = 65) :
    Signature.fromBytes b =
      if topBitSet ((b.drop 32).take 32) then .error ⟨"non-canonical s", "signature"⟩
      else .ok (Signature.create (b.take 32) ((b.drop 32).take 32)
        (Signature.getNormalizedV (byteAt b 64))) := by
  unfold Signature.fromBytes
  rw [if_neg h64, if_pos h65]

/-- Both blob paths produce `networkV = null`. -/
theorem fromBytes_networkV (b : List Nat) (res : Signature)
    (h : Signature.fromBytes b = .ok res) : res.networkV = none := by
  by_cases h64 : b.length = 64
  · rw [fromBytes_blob64_eq b h64] at h
    injection h with h2
    rw [← h2]
    rfl
  · by_cases h65 : b.length = 65
    · rw [fromBytes_65_eq b h64 h65] at h
      split at h
      · cases h
      · injection h with h2
        rw [← h2]
        rfl
    · unfold Signature.fromBytes at h
      rw [if_neg h64, if_neg h65] at h
      cases h

/-- `resolveV` only ever yields an absent `networkV` or one at least 35. -/
theorem resolveV_networkV (v : Option Int) (ys : Option (List Nat)) (yp : Option Int)
    (nv : Option Int) (v' : Nat) (h : Signature.resolveV v ys yp = .ok (nv, v')) :
    nv = none ∨ ∃ n, nv = some n ∧ 35 ≤ n := by
  rcases v with _ | raw
  · rcases ys with _ | ys'
    · rcases yp with _ | ypv
      · simp only [Signature.resolveV] at h
        cases h
      · simp only [Signature.resolveV] at h
        split at h
        · injection h with h2
          exact Or.inl (congrArg Prod.fst h2).symm
        · split at h
          · injection h with h2
            exact Or.inl (congrArg Prod.fst h2).symm
          · cases h
    · simp only [Signature.resolveV] at h
      split at h
      · injection h with h2
        exact Or.inl (congrArg Prod.fst h2).symm
      · cases h
  · simp only [Signature.resolveV] at h
    injection h with h2
    have hfst := congrArg Prod.fst h2
    by_cases h35 : (35 : Int) ≤ raw
    · rw [if_pos h35] at hfst
      exact Or.inr ⟨raw, hfst.symm, h35⟩
    · rw [if_neg h35] at hfst
      exact Or.inl hfst.symm

/-- The record path maintains the `networkV` invariant. -/
theorem assembleRecord_networkVOk (rec : SigRecord) (res : Signature)
    (h : Signature.assembleRecord rec = .ok res) : res.NetworkVOk :=
  resolveV_networkV rec.v rec.yParityAndS rec.yParity res.networkV res.v
    (assembleRecord_ok_resolveV rec res h)

/-- C10: every instance produced by the factory surface (`from` on any input
shape, `clone`) has `networkV` either null or at least 35 — never 0 nor a
positive value below 35 — and under that invariant `clone`'s truthiness-guarded
copy carries `networkV` over exactly. -/
theorem C10_networkV_invariant :
    (∀ sl : SignatureLike, (∀ s, sl = .inst s → s.NetworkVOk) →
      ∀ res, Signature.fromLike sl = .ok res → res.NetworkVOk) ∧
    (∀ sig : Signature, sig.NetworkVOk → sig.clone.networkV = sig.networkV) := by
  constructor
  · intro sl hinst res h
    cases sl with
    | nullish =>
        injection h with h2
        rw [← h2]
        exact Or.inl rfl
    | blob b => exact Or.inl (fromBytes_networkV b res h)
    | inst s =>
        have hok := hinst s rfl
        injection h with h2
        rw [← h2]
        have hcl := clone_networkV s hok
        unfold Signature.NetworkVOk at hok ⊢
        rw [hcl]
        exact hok
    | record rec =>
        exact assembleRecord_networkVOk rec res (fromRecord_ok_assemble rec res h)
  · exact clone_networkV

/-- A concrete instance with a chain-bound `networkV`. -/
def sig9Ex : Signature :=
  ⟨List.replicate 32 1, List.replicate 32 2, 27, some 38, false⟩

/-- C9 witness: freezing a concrete chain-bound instance blocks `setV` and
clones to an unfrozen instance with the same `networkV`. -/
theorem C9_freeze_semantics_witness :
    Signature.NetworkVOk sig9Ex ∧
    Signature.setV sig9Ex.freeze 27 ≠ .ok (Signature.create ZeroHash ZeroHash 27) ∧
    sig9Ex.freeze.clone.isFrozen = false ∧
    sig9Ex.freeze.clone.networkV = sig9Ex.networkV :=
  have h : Signature.NetworkVOk sig9Ex := Or.inr ⟨38, rfl, by decide⟩
  ⟨h, (C9_freeze_semantics sig9Ex h).2.2.1 27 (Signature.create ZeroHash ZeroHash 27),
    (C9_freeze_semantics sig9Ex h).2.2.2.2.2.2.2.1,
    (C9_freeze_semantics sig9Ex h).2.2.2.2.2.2.2.2.2.2.2⟩

/-- A record carrying a chain-bound `v = 37`. -/
def rec10Ex : SigRecord :=
  ⟨some (List.replicate 32 1), some (List.replicate 32 2), some 37, none, none⟩

/-- The instance `from` builds out of `rec10Ex` (37 is odd, so `v = 27`). -/
def res10Ex : Signature :=
  ⟨List.replicate 32 1, List.replicate 32 2, 27, some 37, false⟩

/-- C10 witness: the record-constructed instance satisfies the invariant and
its clone keeps `networkV = 37`. -/
theorem C10_networkV_invariant_witness :
    Signature.NetworkVOk res10Ex ∧ res10Ex.clone.networkV = res10Ex.networkV :=
  have h1 : Signature.NetworkVOk res10Ex :=
    C10_networkV_invariant.1 (.record rec10Ex) (fun s hs => nomatch hs) res10Ex
      (by decide)
  ⟨h1, C10_networkV_invariant.2 res10Ex h1⟩
